import Mathlib

/-!
Verification of the TITAN V31.4 multi-tenant clinical records backend.

This file gives a shallow embedding of the isolation, encryption,
consistency and audit substrate of the backend, translated from:
  - the PostgreSQL schema (RLS policies, triggers, generated columns),
  - the RLS context module (setRLSContext, validateRLSContext),
  - the tRPC middlewares (requireUser, requireAdmin),
  - the data-access helpers (db.ts),
  - the PGP encryption service, the authentication service,
  - the pharmacy router (createTransaction).

NUMERIC(10,2) money values are modelled as integer cents and
NUMERIC(5,4) rates as integer ten-thousandths; storing a value of
larger scale into such a column rounds to the column scale with ties
away from zero, as PostgreSQL does for NUMERIC.
-/

namespace Titan

/-! ## RLS session state and policy predicates -/

/-- PostgreSQL session variables app.user_id / app.center_id.
`none` models an unset (or SET ... = NULL) variable. -/
structure Session where
  appUserId : Option String
  appCenterId : Option String
deriving Repr, DecidableEq

def emptySession : Session := ⟨none, none⟩

deriving instance DecidableEq for Except

/-- SQL function get_user_center_id():
`SELECT NULLIF(current_setting('app.center_id', TRUE), '')::UUID`. -/
def get_user_center_id (s : Session) : Option String :=
  match s.appCenterId with
  | none => none
  | some c => if c = "" then none else some c

/-- SQL function get_current_user_id():
`SELECT NULLIF(current_setting('app.user_id', TRUE), '')::UUID`. -/
def get_current_user_id (s : Session) : Option String :=
  match s.appUserId with
  | none => none
  | some u => if u = "" then none else some u

/-- setRLSContext(userId, centerId) from the RLS module: sets app.user_id,
and sets app.center_id when centerId is truthy, clearing it otherwise
(the superadmin branch executes SET app.center_id = NULL). -/
def setRLSContext (userId : String) (centerId : Option String) (s : Session) : Session :=
  { s with
    appUserId := some userId
    appCenterId :=
      match centerId with
      | some c => if c = "" then none else some c
      | none => none }

/-- Truth value of the SQL comparison `a = b` on nullable columns:
TRUE only when both sides are non-NULL and equal (a NULL comparison is
not TRUE, so the row is filtered out). -/
def sqlEq (a b : Option String) : Bool :=
  match a, b with
  | some x, some y => x = y
  | _, _ => false

theorem sqlEq_some_iff (a : Option String) (x : String) :
    sqlEq a (some x) = true ↔ a = some x := by
  cases a <;> simp [sqlEq]

/-- A row of the patients table (the columns the claims are about). -/
structure Patient where
  id : String
  centerId : Option String
  firstName : String
  lastName : String
deriving Repr, DecidableEq

/-- A row of the users table (the columns the RLS policy reads). -/
structure UserRow where
  id : String
  centerId : Option String
  isSuperadmin : Bool
deriving Repr, DecidableEq

/-- USING / WITH CHECK predicate of policy patients_center:
`center_id = get_user_center_id()` (the two clauses are identical). -/
def patients_center (s : Session) (p : Patient) : Bool :=
  sqlEq p.centerId (get_user_center_id s)

/-- USING predicate of policy users_center:
`is_superadmin = TRUE OR center_id = get_user_center_id()`. -/
def users_center (s : Session) (u : UserRow) : Bool :=
  u.isSuperadmin || sqlEq u.centerId (get_user_center_id s)

/-- Database state visible to the RLS claims: the two policed tables
and the current session variables. -/
structure DBState where
  patients : List Patient
  usersTable : List UserRow
  session : Session
deriving Repr, DecidableEq

/-- Rows of patients a SELECT sees under RLS. -/
def visiblePatients (st : DBState) : List Patient :=
  st.patients.filter (patients_center st.session)

/-- Rows of users a SELECT sees under RLS. -/
def visibleUsers (st : DBState) : List UserRow :=
  st.usersTable.filter (users_center st.session)

/-! ## tRPC middlewares and data-access helpers -/

/-- ctx.user as the middlewares read it. -/
structure CtxUser where
  id : String
  centerId : Option String
  isSuperadmin : Bool
deriving Repr, DecidableEq

inductive TrpcErr
  | UNAUTHORIZED
  | FORBIDDEN
deriving Repr, DecidableEq

/-- The JavaScript expression `ctx.user.centerId || null`. -/
def jsCenterOrNull : Option String → Option String
  | some c => if c = "" then none else some c
  | none => none

/-- Middleware requireUser: rejects a missing user with UNAUTHORIZED,
otherwise applies the RLS context before the handler runs. -/
def requireUser (user? : Option CtxUser) (st : DBState) : Except TrpcErr DBState :=
  match user? with
  | none => .error .UNAUTHORIZED
  | some u =>
      .ok { st with session := setRLSContext u.id (jsCenterOrNull u.centerId) st.session }

/-- Middleware requireAdmin: UNAUTHORIZED without a user, FORBIDDEN
without is_superadmin, otherwise applies the RLS context. -/
def requireAdmin (user? : Option CtxUser) (st : DBState) : Except TrpcErr DBState :=
  match user? with
  | none => .error .UNAUTHORIZED
  | some u =>
      if u.isSuperadmin = false then .error .FORBIDDEN
      else .ok { st with session := setRLSContext u.id (jsCenterOrNull u.centerId) st.session }

/-- A patient list query (`SELECT * FROM patients`) executed through the
isolation layer: requireUser, then the RLS policies filter the rows. -/
def listPatientsAs (user? : Option CtxUser) (st : DBState) : Except TrpcErr (List Patient) :=
  (requireUser user? st).map visiblePatients

/-- A users list query (usersRouter.list, a protectedProcedure)
executed through the isolation layer: requireUser, then the
users_center RLS policy filters the rows. -/
def listUsersAs (user? : Option CtxUser) (st : DBState) : Except TrpcErr (List UserRow) :=
  (requireUser user? st).map visibleUsers

/-- The same list query behind the requireAdmin middleware. -/
def listPatientsAsAdmin (user? : Option CtxUser) (st : DBState) : Except TrpcErr (List Patient) :=
  (requireAdmin user? st).map visiblePatients

/-- `SELECT * FROM users` behind requireAdmin. -/
def listUsersAsAdmin (user? : Option CtxUser) (st : DBState) : Except TrpcErr (List UserRow) :=
  (requireAdmin user? st).map visibleUsers

/-- Errors a data-access helper can surface.  RlsCheckViolation is the
database rejecting a write through the WITH CHECK clause; the helpers
themselves define no ContextMissing failure. -/
inductive DbError
  | RlsCheckViolation
deriving Repr, DecidableEq

/-- db.ts getPatientsByCenterId: `SELECT * FROM patients WHERE center_id
= $1`, executed under whatever RLS session is current.  It performs no
context check of its own and always succeeds on the read path. -/
def getPatientsByCenterId (centerId : String) (st : DBState) : Except DbError (List Patient) :=
  .ok ((visiblePatients st).filter (fun p => sqlEq p.centerId (some centerId)))

/-- db.ts createPatient: `INSERT INTO patients ...`; the RLS WITH CHECK
clause of patients_center rejects the row when it does not satisfy
`center_id = get_user_center_id()`. -/
def createPatient (p : Patient) (st : DBState) : Except DbError DBState :=
  if patients_center st.session p
  then .ok { st with patients := st.patients ++ [p] }
  else .error .RlsCheckViolation

inductive RlsError
  | ContextMissing
deriving Repr, DecidableEq

/-- validateRLSContext from the RLS module: raises when app.user_id is
unset.  It exists, but no data-access helper invokes it. -/
def validateRLSContext (st : DBState) : Except RlsError Unit :=
  match get_current_user_id st.session with
  | none => .error .ContextMissing
  | some _ => .ok ()

/-! ## C1: tenant isolation through the isolation layer -/

/-- C1 counterexample: the per-table policies do not isolate every
query.  The users_center USING clause tests the STORED row's
is_superadmin column, so a superadmin-flagged user row owned by tenant
B is returned to a non-privileged principal of tenant A by the users
list query (a protectedProcedure) through the very same isolation
layer. -/
theorem c1_counterexample :
    listUsersAs (some ⟨"user1", some "centerA", false⟩)
        { patients := []
          usersTable := [⟨"badmin", some "centerB", true⟩]
          session := emptySession }
      = .ok [⟨"badmin", some "centerB", true⟩]
    ∧ (⟨"badmin", some "centerB", true⟩ : UserRow).centerId = some "centerB"
    ∧ "centerA" ≠ "centerB" := by
  decide

/-- C1 amended: for tenants A ≠ B and a non-privileged principal of A,
a patient list query through requireUser + setRLSContext + the
patients_center RLS policy returns no row owned by B, and with one
patient under A and one under B the query returns exactly the patient
of A; on the users table, however, every returned row is either owned
by A or flagged is_superadmin in storage — superadmin-flagged rows are
visible to A whatever tenant owns them, so the isolation guarantee
excludes exactly those rows. -/
theorem c1_tenant_isolation (A B : String) (u : CtxUser) (st : DBState)
    (hAB : A ≠ B) (hA : A ≠ "")
    (hpriv : u.isSuperadmin = false) (hu : u.centerId = some A) :
    (∀ res, listPatientsAs (some u) st = .ok res → ∀ p ∈ res, p.centerId ≠ some B)
    ∧ (∀ p1 p2 : Patient, p1.centerId = some A → p2.centerId = some B →
        listPatientsAs (some u) { st with patients := [p1, p2] } = .ok [p1])
    ∧ (∀ res, listUsersAs (some u) st = .ok res → ∀ r ∈ res,
        r.centerId = some A ∨ r.isSuperadmin = true) := by
  have hsess :
      get_user_center_id (setRLSContext u.id (jsCenterOrNull u.centerId) st.session)
        = some A := by
    simp [setRLSContext, jsCenterOrNull, get_user_center_id, hu, hA]
  refine ⟨?_, ?_, ?_⟩
  · intro res hres p hp
    simp only [listPatientsAs, requireUser, Except.map] at hres
    cases hres
    simp only [visiblePatients, List.mem_filter] at hp
    have hpc := hp.2
    simp only [patients_center, hsess] at hpc
    have hpa : p.centerId = some A := (sqlEq_some_iff _ _).mp hpc
    rw [hpa]
    exact fun hcon => hAB (Option.some.inj hcon)
  · intro p1 p2 h1 h2
    have hBA : ¬ (B = A) := fun h => hAB h.symm
    simp only [listPatientsAs, requireUser, Except.map]
    congr 1
    simp [visiblePatients, patients_center, hsess, sqlEq, h1, h2, hBA]
  · intro res hres r hr
    simp only [listUsersAs, requireUser, Except.map] at hres
    cases hres
    simp only [visibleUsers, List.mem_filter] at hr
    have hrc := hr.2
    simp only [users_center, hsess, Bool.or_eq_true] at hrc
    rcases hrc with hsup | hcen
    · exact Or.inr hsup
    · exact Or.inl ((sqlEq_some_iff _ _).mp hcen)

/-- Witness for C1 at concrete tenants and rows. -/
theorem c1_tenant_isolation_witness :
    listPatientsAs (some ⟨"user1", some "centerA", false⟩)
        { patients := [⟨"p1", some "centerA", "Jane", "Doe"⟩,
                       ⟨"p2", some "centerB", "John", "Roe"⟩],
          usersTable := [], session := emptySession }
      = .ok [⟨"p1", some "centerA", "Jane", "Doe"⟩] := by
  exact (c1_tenant_isolation "centerA" "centerB" ⟨"user1", some "centerA", false⟩
      { patients := [⟨"p1", some "centerA", "Jane", "Doe"⟩,
                     ⟨"p2", some "centerB", "John", "Roe"⟩],
        usersTable := [], session := emptySession }
      (by decide) (by decide) rfl rfl).2.1
    ⟨"p1", some "centerA", "Jane", "Doe"⟩ ⟨"p2", some "centerB", "John", "Roe"⟩ rfl rfl

/-! ## C2: behaviour of data access without a tenant context -/

/-- A database state holding one patient of center A with no RLS context set. -/
def c2NoContextState : DBState :=
  { patients := [⟨"p1", some "centerA", "Jane", "Doe"⟩]
    usersTable := []
    session := emptySession }

/-- C2 counterexample: with no Tenant Context built, the data-access
operation getPatientsByCenterId does not fail with ContextMissing: it
returns a successful empty result, even though a patient row exists. -/
theorem c2_counterexample :
    getPatientsByCenterId "centerA" c2NoContextState = .ok [] ∧
    c2NoContextState.patients ≠ [] := by
  decide

/-- C2 amended: without an RLS context, reads return a successful empty
result (zero rows) because the policy predicate is never satisfied, and
writes are rejected by the WITH CHECK clause, so no unscoped access and
no mutation occurs; the ContextMissing check exists in
validateRLSContext but the data-access helpers never invoke it. -/
theorem c2_fail_closed_without_error (st : DBState)
    (hc : st.session.appCenterId = none) :
    (∀ cid, getPatientsByCenterId cid st = .ok [])
    ∧ (∀ p, createPatient p st = .error .RlsCheckViolation)
    ∧ (st.session.appUserId = none → validateRLSContext st = .error .ContextMissing) := by
  have hnone : get_user_center_id st.session = none := by
    simp [get_user_center_id, hc]
  have hvis : visiblePatients st = [] := by
    simp only [visiblePatients, List.filter_eq_nil_iff]
    intro p _
    simp [patients_center, hnone, sqlEq]
  refine ⟨?_, ?_, ?_⟩
  · intro cid
    simp [getPatientsByCenterId, hvis]
  · intro p
    simp [createPatient, patients_center, hnone, sqlEq]
  · intro hu
    simp [validateRLSContext, get_current_user_id, hu]

/-- Witness for C2 amended at the concrete no-context state. -/
theorem c2_fail_closed_without_error_witness :
    getPatientsByCenterId "centerA" c2NoContextState = .ok [] ∧
    validateRLSContext c2NoContextState = .error .ContextMissing := by
  refine ⟨(c2_fail_closed_without_error c2NoContextState rfl).1 "centerA", ?_⟩
  exact (c2_fail_closed_without_error c2NoContextState rfl).2.2 rfl

/-! ## C8: privileged principal with no tenant id -/

/-- A state with one patient of center A and two user rows, read by a
superadmin principal that carries no center id. -/
def c8State : DBState :=
  { patients := [⟨"p1", some "centerA", "Jane", "Doe"⟩]
    usersTable := [⟨"admin1", none, true⟩, ⟨"u2", some "centerA", false⟩]
    session := emptySession }

def c8Admin : CtxUser := ⟨"admin1", none, true⟩

/-- C8: a privileged principal with no tenant id is NOT unscoped.  On
patients the policy has no superadmin escape, so with app.center_id
unset the superadmin sees zero patient rows; and in the users policy the
unqualified is_superadmin refers to the row being read, not to the
requesting principal, so even on users the superadmin sees only the
superadmin rows, not the full table.  This contradicts the claim and the
code comments stating superadmins see all centers. -/
theorem c8_superadmin_sees_no_patients :
    listPatientsAsAdmin (some c8Admin) c8State = .ok []
    ∧ c8State.patients ≠ []
    ∧ listUsersAsAdmin (some c8Admin) c8State = .ok [⟨"admin1", none, true⟩]
    ∧ c8State.usersTable ≠ [⟨"admin1", none, true⟩] := by
  decide

/-! ## PGP field encryption service -/

/-- Contents of a BYTEA value handed to the decryption path: a
well-formed PGP envelope carrying the symmetric key it was produced
under, a nonempty malformed (non-PGP) byte string, or the empty buffer. -/
inductive Buf
  | envelope (key data : String)
  | garbage (bytes : String)
  | empty
deriving Repr, DecidableEq

/-- pgp_sym_encrypt(data, key). -/
def pgp_sym_encrypt (data key : String) : Buf := .envelope key data

/-- pgp_sym_decrypt: succeeds exactly on a well-formed envelope under
the same key; a wrong key or malformed input raises (modelled none). -/
def pgp_sym_decrypt (b : Buf) (key : String) : Option String :=
  match b with
  | .envelope k d => if k = key then some d else none
  | _ => none

/-- Failure modes of the PGP service, one per throw site. -/
inductive PGPError
  | DbUnavailable
  | EmptyPlaintext
  | EmptyBuffer
  | EncryptionFailed
  | DecryptionFailed
deriving Repr, DecidableEq

/-- Environment of the PGP service: database availability and the
encryption_key entry of system_settings (none when the row or field is
missing, in which case app_get_encryption_key() yields NULL). -/
structure PGPConfig where
  dbAvailable : Bool
  encryptionKey : Option String
deriving Repr, DecidableEq

/-- The guard `!plaintext || plaintext.trim().length === 0`: true
exactly when the string is empty or consists of whitespace only. -/
def isBlank (s : String) : Bool := s.toList.all Char.isWhitespace

/-- PGPService.encrypt: rejects an empty or whitespace-only plaintext,
then runs `SELECT encrypt_pgp_data(p)`; a NULL key makes the SQL return
NULL, which the service turns into the generic encryption failure. -/
def PGPService.encrypt (cfg : PGPConfig) (plaintext : String) : Except PGPError Buf :=
  if cfg.dbAvailable = false then .error .DbUnavailable
  else if isBlank plaintext then .error .EmptyPlaintext
  else
    match cfg.encryptionKey with
    | none => .error .EncryptionFailed
    | some key => .ok (pgp_sym_encrypt plaintext key)

/-- PGPService.decrypt: rejects an empty buffer, then runs
`SELECT decrypt_pgp_data(c)`; a missing key, a malformed buffer or a
foreign-key envelope all surface as the decryption failure. -/
def PGPService.decrypt (cfg : PGPConfig) (ciphertext : Buf) : Except PGPError String :=
  if cfg.dbAvailable = false then .error .DbUnavailable
  else if ciphertext = .empty then .error .EmptyBuffer
  else
    match cfg.encryptionKey with
    | none => .error .DecryptionFailed
    | some key =>
        match pgp_sym_decrypt ciphertext key with
        | none => .error .DecryptionFailed
        | some d => .ok d

/-- PGPService.encryptOptional: returns null for a missing or blank
value, and catches every failure of encrypt, returning null. -/
def PGPService.encryptOptional (cfg : PGPConfig) (plaintext : Option String) : Option Buf :=
  match plaintext with
  | none => none
  | some s =>
      if isBlank s then none
      else
        match PGPService.encrypt cfg s with
        | .error _ => none
        | .ok b => some b

/-- PGPService.decryptOptional: returns null for a missing or empty
buffer, and catches every failure of decrypt, returning null. -/
def PGPService.decryptOptional (cfg : PGPConfig) (ciphertext : Option Buf) : Option String :=
  match ciphertext with
  | none => none
  | some b =>
      if b = .empty then none
      else
        match PGPService.decrypt cfg b with
        | .error _ => none
        | .ok s => some s

/-- decrypt composed with encrypt, in one configuration. -/
def pgpRoundTrip (cfg : PGPConfig) (s : String) : Except PGPError String :=
  (PGPService.encrypt cfg s).bind (PGPService.decrypt cfg)

/-- A configuration with the database up and the key "key1" installed. -/
def pgpCfg1 : PGPConfig := ⟨true, some "key1"⟩

/-! ## C3: failure propagation of the encryption layer -/

/-- C3 counterexample: decrypting an envelope encrypted under a foreign
key fails, but the optional decrypt path used by the read handlers
swallows that failure and substitutes null for it, contradicting the
claim that it never does so. -/
theorem c3_counterexample :
    PGPService.decrypt pgpCfg1 (.envelope "key2" "secret") = .error .DecryptionFailed
    ∧ PGPService.decryptOptional pgpCfg1 (some (.envelope "key2" "secret")) = none := by
  decide

/-- C3 amended: decrypt of a malformed or foreign-key envelope fails
with the decryption error and encrypt/decrypt with an unavailable key
fail (as the generic encryption/decryption failure rather than a
distinct key error), and these errors propagate from encrypt/decrypt;
but the optional wrappers encryptOptional/decryptOptional catch every
such failure and return an absent value instead of propagating it. -/
theorem c3_failure_propagation (cfg : PGPConfig) (hdb : cfg.dbAvailable = true) :
    (∀ junk, PGPService.decrypt cfg (.garbage junk) = .error .DecryptionFailed)
    ∧ (∀ k d key, cfg.encryptionKey = some key → k ≠ key →
        PGPService.decrypt cfg (.envelope k d) = .error .DecryptionFailed)
    ∧ (cfg.encryptionKey = none → ∀ s, isBlank s = false →
        PGPService.encrypt cfg s = .error .EncryptionFailed
        ∧ ∀ b, b ≠ .empty → PGPService.decrypt cfg b = .error .DecryptionFailed)
    ∧ (∀ b, PGPService.decrypt cfg b = .error .DecryptionFailed →
        PGPService.decryptOptional cfg (some b) = none)
    ∧ (∀ s, PGPService.encrypt cfg s = .error .EncryptionFailed →
        PGPService.encryptOptional cfg (some s) = none) := by
  refine ⟨?_, ?_, ?_, ?_, ?_⟩
  · intro junk
    cases hk : cfg.encryptionKey <;>
      simp [PGPService.decrypt, hdb, hk, pgp_sym_decrypt]
  · intro k d key hkey hne
    simp [PGPService.decrypt, hdb, hkey, pgp_sym_decrypt, hne]
  · intro hk s hs
    refine ⟨by simp [PGPService.encrypt, hdb, hk, hs], ?_⟩
    intro b hb
    simp [PGPService.decrypt, hdb, hk, hb]
  · intro b hdec
    by_cases hb : b = Buf.empty
    · simp [PGPService.decryptOptional, hb]
    · simp [PGPService.decryptOptional, hb, hdec]
  · intro s henc
    by_cases hs : isBlank s = true
    · simp [PGPService.encryptOptional, hs]
    · simp only [Bool.not_eq_true] at hs
      simp [PGPService.encryptOptional, hs, henc]

/-- Witness for C3 amended: malformed bytes fail decrypt, and the
optional path maps that failure to null. -/
theorem c3_failure_propagation_witness :
    PGPService.decrypt pgpCfg1 (.garbage "not-a-pgp-message") = .error .DecryptionFailed
    ∧ PGPService.decryptOptional pgpCfg1 (some (.garbage "not-a-pgp-message")) = none := by
  refine ⟨(c3_failure_propagation pgpCfg1 rfl).1 "not-a-pgp-message", ?_⟩
  exact (c3_failure_propagation pgpCfg1 rfl).2.2.2.1 (.garbage "not-a-pgp-message")
    ((c3_failure_propagation pgpCfg1 rfl).1 "not-a-pgp-message")

/-! ## C4: encryption round trip -/

/-- C4 counterexample: the round trip fails on the empty string — the
claim includes the empty string, but encrypt rejects it with the
empty-plaintext error instead of producing an envelope. -/
theorem c4_counterexample :
    pgpRoundTrip pgpCfg1 "" = .error .EmptyPlaintext
    ∧ pgpRoundTrip pgpCfg1 "" ≠ .ok "" := by
  decide

/-- C4 amended: with the database available and a key installed,
decrypt(encrypt(s)) = s for every string s that is not empty and not
whitespace-only (multi-byte and long strings included); encrypting an
absent optional value yields an absent value, decrypting an absent
value yields an absent value, and the optional encrypt path also maps
empty/whitespace-only strings to absent; the empty string itself is
rejected by encrypt rather than round-tripped. -/
theorem c4_round_trip (cfg : PGPConfig) (key : String)
    (hdb : cfg.dbAvailable = true) (hk : cfg.encryptionKey = some key) :
    (∀ s, isBlank s = false → pgpRoundTrip cfg s = .ok s)
    ∧ PGPService.encryptOptional cfg none = none
    ∧ PGPService.decryptOptional cfg none = none
    ∧ (∀ s, isBlank s = true → PGPService.encryptOptional cfg (some s) = none)
    ∧ PGPService.encrypt cfg "" = .error .EmptyPlaintext := by
  refine ⟨?_, rfl, rfl, ?_, ?_⟩
  · intro s hs
    simp [pgpRoundTrip, PGPService.encrypt, PGPService.decrypt, Except.bind, hdb, hk, hs,
      pgp_sym_encrypt, pgp_sym_decrypt]
  · intro s hs
    simp [PGPService.encryptOptional, hs]
  · simp [PGPService.encrypt, hdb, isBlank]

/-- Witness for C4 amended on a multi-byte plaintext. -/
theorem c4_round_trip_witness :
    pgpRoundTrip pgpCfg1 "données confidentielles" = .ok "données confidentielles"
    ∧ PGPService.encryptOptional pgpCfg1 none = none := by
  refine ⟨(c4_round_trip pgpCfg1 "key1" rfl rfl).1 "données confidentielles" (by decide), ?_⟩
  exact (c4_round_trip pgpCfg1 "key1" rfl rfl).2.1

/-! ## C10: password verification with empty credential material -/

inductive AuthError
  | DbUnavailable
deriving Repr, DecidableEq

/-- AuthService.verifyPassword.  The argument cryptEq models the
PostgreSQL comparison `hashedPassword = crypt(plainPassword,
hashedPassword)`; the guard `!plainPassword || !hashedPassword` returns
false before that comparison ever runs. -/
def verifyPassword (cryptEq : String → String → Bool) (dbAvailable : Bool)
    (plainPassword hashedPassword : String) : Except AuthError Bool :=
  if dbAvailable = false then .error .DbUnavailable
  else if plainPassword = "" ∨ hashedPassword = "" then .ok false
  else .ok (cryptEq plainPassword hashedPassword)

/-- C10: with the database available, an empty password or an empty
stored digest makes verifyPassword return false (an ok value, not an
exception), and the result is independent of the storage comparison
oracle, so no comparison against storage decides it. -/
theorem c10_empty_credentials_rejected :
    ∀ (cryptEq : String → String → Bool) (d p : String),
      verifyPassword cryptEq true "" d = .ok false
      ∧ verifyPassword cryptEq true p "" = .ok false := by
  intro cryptEq d p
  constructor
  · simp [verifyPassword]
  · simp [verifyPassword]

/-! ## NUMERIC storage rounding

Monetary NUMERIC(10,2) columns are modelled as integer cents and
NUMERIC(5,4) rates as integer ten-thousandths.  Storing a value of a
larger scale into such a column rounds to the column scale, ties away
from zero, as PostgreSQL NUMERIC does. -/

/-- Round n / d to the nearest integer, ties away from zero (d > 0). -/
def numericRoundDiv (n d : Int) : Int :=
  if 0 ≤ n then (n + d / 2) / d else -(((-n) + d / 2) / d)

/-! ## Invoice totals (recalc_invoice_totals and the generated column) -/

/-- invoice_items.total_price GENERATED ALWAYS AS (quantity *
unit_price) STORED into a NUMERIC(10,2) column: quantity is in
hundredths, unit_price in cents, so the product carries four decimals
and storing it rounds back to cents. -/
def invoiceItemTotalC (qtyH unitPriceC : Int) : Int :=
  numericRoundDiv (qtyH * unitPriceC) 100

/-- A row of invoice_items. -/
structure InvoiceItem where
  id : String
  invoiceId : String
  qtyH : Int
  unitPriceC : Int
  totalPriceC : Int
deriving Repr, DecidableEq

/-- A row of invoices (the column the claim is about). -/
structure Invoice where
  id : String
  totalAmountC : Int
deriving Repr, DecidableEq

structure InvoiceDB where
  invoices : List Invoice
  items : List InvoiceItem
deriving Repr, DecidableEq

/-- `SELECT COALESCE(SUM(total_price), 0) FROM invoice_items WHERE
invoice_id = target`. -/
def sumItemTotalsC (items : List InvoiceItem) (invId : String) : Int :=
  ((items.filter (fun it => it.invoiceId = invId)).map (·.totalPriceC)).sum

/-- Trigger function recalc_invoice_totals: rewrites total_amount of
the target invoice from the current child rows. -/
def recalc_invoice_totals (st : InvoiceDB) (target : String) : InvoiceDB :=
  { st with
    invoices := st.invoices.map (fun inv =>
      if inv.id = target
      then { inv with totalAmountC := sumItemTotalsC st.items target }
      else inv) }

/-- A fresh invoice_items row with its generated total_price column. -/
def mkInvoiceItem (id invoiceId : String) (qtyH unitPriceC : Int) : InvoiceItem :=
  ⟨id, invoiceId, qtyH, unitPriceC, invoiceItemTotalC qtyH unitPriceC⟩

/-- INSERT INTO invoice_items followed by the AFTER INSERT trigger
(recalculating NEW.invoice_id), in one transaction. -/
def insertInvoiceItem (st : InvoiceDB) (id invoiceId : String) (qtyH unitPriceC : Int) :
    InvoiceDB :=
  recalc_invoice_totals
    { st with items := st.items ++ [mkInvoiceItem id invoiceId qtyH unitPriceC] }
    invoiceId

/-- Lookup of the invoice_items row with a given primary key. -/
def findItem : List InvoiceItem → String → Option InvoiceItem
  | [], _ => none
  | it :: rest, iid => if it.id = iid then some it else findItem rest iid

/-- Removal of the invoice_items row with a given primary key. -/
def removeItem : List InvoiceItem → String → List InvoiceItem
  | [], _ => []
  | it :: rest, iid => if it.id = iid then rest else it :: removeItem rest iid

/-- DELETE FROM invoice_items WHERE id = iid, followed by the AFTER
DELETE trigger recalculating OLD.invoice_id, in one transaction. -/
def deleteInvoiceItem (st : InvoiceDB) (iid : String) : InvoiceDB :=
  match findItem st.items iid with
  | none => st
  | some old => recalc_invoice_totals { st with items := removeItem st.items iid } old.invoiceId

/-- UPDATE of quantity and unit_price on the rows with the given id;
the generated total_price column is recomputed by the engine. -/
def updateItemRows : List InvoiceItem → String → Int → Int → List InvoiceItem
  | [], _, _, _ => []
  | it :: rest, iid, q, p =>
      (if it.id = iid
       then { it with qtyH := q, unitPriceC := p, totalPriceC := invoiceItemTotalC q p }
       else it) :: updateItemRows rest iid q p

/-- UPDATE invoice_items SET quantity, unit_price WHERE id = iid,
followed by the AFTER UPDATE trigger recalculating NEW.invoice_id, in
one transaction. -/
def updateInvoiceItem (st : InvoiceDB) (iid : String) (q p : Int) : InvoiceDB :=
  match findItem st.items iid with
  | none => st
  | some old =>
      recalc_invoice_totals { st with items := updateItemRows st.items iid q p } old.invoiceId

/-- The consistency property the trigger maintains: every stored
invoice total is the sum of the stored line totals of its surviving
items, and every stored line total is the generated quantity ×
unit_price value. -/
def InvoiceTotalsConsistent (st : InvoiceDB) : Prop :=
  (∀ inv ∈ st.invoices, inv.totalAmountC = sumItemTotalsC st.items inv.id)
  ∧ (∀ it ∈ st.items, it.totalPriceC = invoiceItemTotalC it.qtyH it.unitPriceC)

instance (st : InvoiceDB) : Decidable (InvoiceTotalsConsistent st) := by
  unfold InvoiceTotalsConsistent
  infer_instance

theorem sumItemTotalsC_cons (a : InvoiceItem) (l : List InvoiceItem) (j : String) :
    sumItemTotalsC (a :: l) j =
      (if a.invoiceId = j then a.totalPriceC else 0) + sumItemTotalsC l j := by
  by_cases h : a.invoiceId = j <;>
    simp [sumItemTotalsC, List.filter_cons, h]

theorem sumItemTotalsC_append_single (l : List InvoiceItem) (a : InvoiceItem) (j : String) :
    sumItemTotalsC (l ++ [a]) j =
      sumItemTotalsC l j + (if a.invoiceId = j then a.totalPriceC else 0) := by
  by_cases h : a.invoiceId = j <;>
    simp [sumItemTotalsC, List.filter_append, List.filter_cons, h]

theorem findItem_mem (l : List InvoiceItem) (iid : String) (it : InvoiceItem)
    (h : findItem l iid = some it) : it ∈ l ∧ it.id = iid := by
  induction l with
  | nil => exact absurd h (by simp [findItem])
  | cons a rest ih =>
    by_cases ha : a.id = iid
    · rw [findItem, if_pos ha] at h
      have heq := Option.some.inj h
      subst heq
      exact ⟨List.mem_cons_self a rest, ha⟩
    · rw [findItem, if_neg ha] at h
      obtain ⟨hmem, hid⟩ := ih h
      exact ⟨List.mem_cons_of_mem a hmem, hid⟩

theorem mem_removeItem (l : List InvoiceItem) (iid : String) (a : InvoiceItem)
    (h : a ∈ removeItem l iid) : a ∈ l := by
  induction l with
  | nil => exact absurd h (by simp [removeItem])
  | cons b rest ih =>
    by_cases hb : b.id = iid
    · rw [removeItem, if_pos hb] at h
      exact List.mem_cons_of_mem b h
    · rw [removeItem, if_neg hb] at h
      rcases List.mem_cons.mp h with h1 | h2
      · exact h1 ▸ List.mem_cons_self b rest
      · exact List.mem_cons_of_mem b (ih h2)

theorem sumItemTotalsC_removeItem (l : List InvoiceItem) (iid j : String) (it : InvoiceItem)
    (hf : findItem l iid = some it) (hne : it.invoiceId ≠ j) :
    sumItemTotalsC (removeItem l iid) j = sumItemTotalsC l j := by
  induction l with
  | nil => exact absurd hf (by simp [findItem])
  | cons a rest ih =>
    by_cases ha : a.id = iid
    · rw [findItem, if_pos ha] at hf
      cases hf
      rw [removeItem, if_pos ha, sumItemTotalsC_cons, if_neg hne]
      ring
    · rw [findItem, if_neg ha] at hf
      rw [removeItem, if_neg ha, sumItemTotalsC_cons, sumItemTotalsC_cons, ih hf]

theorem mem_updateItemRows (l : List InvoiceItem) (iid : String) (q p : Int) (a : InvoiceItem)
    (h : a ∈ updateItemRows l iid q p) :
    a ∈ l ∨ a.totalPriceC = invoiceItemTotalC a.qtyH a.unitPriceC := by
  induction l with
  | nil => exact absurd h (by simp [updateItemRows])
  | cons b rest ih =>
    rw [updateItemRows] at h
    rcases List.mem_cons.mp h with h1 | h2
    · by_cases hb : b.id = iid
      · rw [if_pos hb] at h1
        subst h1
        exact Or.inr rfl
      · rw [if_neg hb] at h1
        exact Or.inl (h1 ▸ List.mem_cons_self b rest)
    · rcases ih h2 with h3 | h3
      · exact Or.inl (List.mem_cons_of_mem b h3)
      · exact Or.inr h3

theorem sumItemTotalsC_updateItemRows_ne (l : List InvoiceItem) (iid : String) (q p : Int)
    (j : String) (h : ∀ it ∈ l, it.id = iid → it.invoiceId ≠ j) :
    sumItemTotalsC (updateItemRows l iid q p) j = sumItemTotalsC l j := by
  induction l with
  | nil => rfl
  | cons b rest ih =>
    have hrest : ∀ it ∈ rest, it.id = iid → it.invoiceId ≠ j :=
      fun it hm => h it (List.mem_cons_of_mem b hm)
    by_cases hb : b.id = iid
    · have hbj : b.invoiceId ≠ j := h b (List.mem_cons_self b rest) hb
      rw [updateItemRows, if_pos hb, sumItemTotalsC_cons, sumItemTotalsC_cons, ih hrest]
      simp only [if_neg hbj]
    · rw [updateItemRows, if_neg hb, sumItemTotalsC_cons, sumItemTotalsC_cons, ih hrest]

theorem recalc_invoice_totals_idem (st : InvoiceDB) (t : String) :
    recalc_invoice_totals (recalc_invoice_totals st t) t = recalc_invoice_totals st t := by
  unfold recalc_invoice_totals
  simp only [List.map_map]
  congr 1
  apply List.map_congr_left
  intro inv _
  by_cases h : inv.id = t <;> simp [Function.comp, h]

theorem insertInvoiceItem_consistent (st : InvoiceDB) (hs : InvoiceTotalsConsistent st)
    (id invoiceId : String) (q p : Int) :
    InvoiceTotalsConsistent (insertInvoiceItem st id invoiceId q p) := by
  obtain ⟨hinv, hit⟩ := hs
  constructor
  · intro inv' hmem
    unfold insertInvoiceItem recalc_invoice_totals at hmem ⊢
    simp only [List.mem_map] at hmem
    obtain ⟨inv, hm, rfl⟩ := hmem
    by_cases h : inv.id = invoiceId
    · rw [if_pos h]
      simp [h]
    · rw [if_neg h]
      simp only
      rw [hinv inv hm, sumItemTotalsC_append_single]
      have hne : ¬ ((mkInvoiceItem id invoiceId q p).invoiceId = inv.id) := by
        simp only [mkInvoiceItem]
        exact fun hcon => h hcon.symm
      rw [if_neg hne]
      ring
  · intro it hmem
    unfold insertInvoiceItem recalc_invoice_totals at hmem
    simp only [List.mem_append, List.mem_singleton] at hmem
    rcases hmem with h | h
    · exact hit it h
    · subst h
      rfl

theorem deleteInvoiceItem_consistent (st : InvoiceDB) (hs : InvoiceTotalsConsistent st)
    (iid : String) :
    InvoiceTotalsConsistent (deleteInvoiceItem st iid) := by
  obtain ⟨hinv, hit⟩ := hs
  unfold deleteInvoiceItem
  cases hf : findItem st.items iid with
  | none => exact ⟨hinv, hit⟩
  | some old =>
    constructor
    · intro inv' hmem
      unfold recalc_invoice_totals at hmem ⊢
      simp only [List.mem_map] at hmem
      obtain ⟨inv, hm, rfl⟩ := hmem
      by_cases h : inv.id = old.invoiceId
      · rw [if_pos h]
        simp [h]
      · rw [if_neg h]
        simp only
        rw [hinv inv hm]
        exact (sumItemTotalsC_removeItem st.items iid inv.id old hf
          (fun hcon => h hcon.symm)).symm
    · intro it hmem
      exact hit it (mem_removeItem st.items iid it hmem)

theorem updateInvoiceItem_consistent (st : InvoiceDB) (hs : InvoiceTotalsConsistent st)
    (hshare : ∀ a ∈ st.items, ∀ b ∈ st.items, a.id = b.id → a.invoiceId = b.invoiceId)
    (iid : String) (q p : Int) :
    InvoiceTotalsConsistent (updateInvoiceItem st iid q p) := by
  obtain ⟨hinv, hit⟩ := hs
  unfold updateInvoiceItem
  cases hf : findItem st.items iid with
  | none => exact ⟨hinv, hit⟩
  | some old =>
    obtain ⟨hom, hoid⟩ := findItem_mem st.items iid old hf
    constructor
    · intro inv' hmem
      unfold recalc_invoice_totals at hmem ⊢
      simp only [List.mem_map] at hmem
      obtain ⟨inv, hm, rfl⟩ := hmem
      by_cases h : inv.id = old.invoiceId
      · rw [if_pos h]
        simp [h]
      · rw [if_neg h]
        simp only
        rw [hinv inv hm]
        refine (sumItemTotalsC_updateItemRows_ne st.items iid q p inv.id ?_).symm
        intro it hitm hitid
        have : it.invoiceId = old.invoiceId :=
          hshare it hitm old hom (by rw [hitid, hoid])
        rw [this]
        exact fun hcon => h hcon.symm
    · intro it hmem
      rcases mem_updateItemRows st.items iid q p it hmem with h | h
      · exact hit it h
      · exact h

/-! ## C5: invoice total consistency -/

/-- The initial state of the concrete scenario: one invoice with
total 0 and no line items. -/
def invScenario0 : InvoiceDB := ⟨[⟨"inv1", 0⟩], []⟩

/-- After inserting a line item of quantity 2.00 at 50.00. -/
def invScenario1 : InvoiceDB := insertInvoiceItem invScenario0 "it1" "inv1" 200 5000

/-- After inserting a second line item of quantity 1.00 at 25.00. -/
def invScenario2 : InvoiceDB := insertInvoiceItem invScenario1 "it2" "inv1" 100 2500

/-- After deleting the first line item again. -/
def invScenario3 : InvoiceDB := deleteInvoiceItem invScenario2 "it1"

/-- C5 counterexample: the stored total is the sum of the stored
NUMERIC(10,2) line totals, not of the exact products: a single line
item of quantity 0.25 at unit price 0.25 has exact product 0.0625
(625 in ten-thousandths of a currency unit) but is stored as 0.06, so
the invoice total (6 cents) differs from the exact quantity ×
unit_price sum. -/
theorem c5_counterexample :
    (insertInvoiceItem ⟨[⟨"invR", 0⟩], []⟩ "itR" "invR" 25 25).invoices
      = [⟨"invR", 6⟩]
    ∧ ((6 : ℚ) / 100) ≠ ((25 : ℚ) / 100) * ((25 : ℚ) / 100) := by
  constructor
  · decide
  · norm_num

/-- C5 amended: after every insert, update or delete of an invoice line
item the parent invoice total equals the sum over surviving line items
of quantity × unit_price rounded to cents (the generated NUMERIC(10,2)
column), written in the same transaction; for updates, rows sharing a
primary key share their parent invoice (guaranteed by the key).  The
concrete scenario is exact: inserting items of 2 × 50.00 and 1 × 25.00
yields 125.00, deleting the first yields 25.00, and recalculation is
idempotent (derived from current rows, no accumulation drift). -/
theorem c5_invoice_totals (st : InvoiceDB) (hs : InvoiceTotalsConsistent st) :
    (∀ id invoiceId q p, InvoiceTotalsConsistent (insertInvoiceItem st id invoiceId q p))
    ∧ (∀ iid, InvoiceTotalsConsistent (deleteInvoiceItem st iid))
    ∧ ((∀ a ∈ st.items, ∀ b ∈ st.items, a.id = b.id → a.invoiceId = b.invoiceId) →
        ∀ iid q p, InvoiceTotalsConsistent (updateInvoiceItem st iid q p))
    ∧ (∀ t, recalc_invoice_totals (recalc_invoice_totals st t) t
        = recalc_invoice_totals st t)
    ∧ invScenario1.invoices = [⟨"inv1", 10000⟩]
    ∧ invScenario2.invoices = [⟨"inv1", 12500⟩]
    ∧ invScenario3.invoices = [⟨"inv1", 2500⟩]
    ∧ (deleteInvoiceItem (insertInvoiceItem invScenario3 "it3" "inv1" 200 5000) "it3").invoices
        = [⟨"inv1", 2500⟩] := by
  refine ⟨fun id invoiceId q p => insertInvoiceItem_consistent st hs id invoiceId q p,
    fun iid => deleteInvoiceItem_consistent st hs iid,
    fun hshare iid q p => updateInvoiceItem_consistent st hs hshare iid q p,
    fun t => recalc_invoice_totals_idem st t,
    by decide, by decide, by decide, by decide⟩

/-- Witness for C5 amended at the concrete scenario state. -/
theorem c5_invoice_totals_witness :
    InvoiceTotalsConsistent (insertInvoiceItem invScenario0 "it1" "inv1" 200 5000) :=
  (c5_invoice_totals invScenario0 (by decide)).1 "it1" "inv1" 200 5000

/-! ## Pharmacy stock (createTransaction and fn_update_pharmacy_stock) -/

/-- A row of pharmacy_items (the columns the claim is about). -/
structure PharmacyItem where
  id : String
  currentStock : Int
deriving Repr, DecidableEq

/-- transaction_type CHECK (transaction_type IN ('in', 'out')). -/
inductive TxType
  | inflow
  | outflow
deriving Repr, DecidableEq

/-- A row of pharmacy_transactions. -/
structure PharmacyTx where
  itemId : String
  txType : TxType
  quantity : Int
deriving Repr, DecidableEq

structure PharmacyDB where
  items : List PharmacyItem
  transactions : List PharmacyTx
deriving Repr, DecidableEq

/-- Failure modes of createTransaction, one per throw site (the zod
schema rejects a non-positive quantity before the handler runs). -/
inductive PharmacyError
  | InvalidQuantity
  | ItemNotFound
  | InsufficientStock
deriving Repr, DecidableEq

def findPharmacyItem : List PharmacyItem → String → Option PharmacyItem
  | [], _ => none
  | it :: rest, iid => if it.id = iid then some it else findPharmacyItem rest iid

/-- Trigger fn_update_pharmacy_stock: AFTER INSERT on
pharmacy_transactions, adds the signed quantity to current_stock of the
referenced item (no stock check of its own). -/
def fn_update_pharmacy_stock (items : List PharmacyItem) (tx : PharmacyTx) :
    List PharmacyItem :=
  items.map (fun it =>
    if it.id = tx.itemId
    then { it with currentStock := it.currentStock +
            (match tx.txType with | .inflow => tx.quantity | .outflow => -tx.quantity) }
    else it)

/-- Stock the handler reads back after the insert. -/
def stockOf (items : List PharmacyItem) (iid : String) : Int :=
  ((findPharmacyItem items iid).map (·.currentStock)).getD 0

/-- pharmacyItemsRouter.createTransaction: validates the input, loads
the item, rejects an outbound quantity above current stock BEFORE
inserting the ledger row, then inserts the row; the trigger updates the
stock in the same transaction.  The returned state is unchanged on
every error path (the handler throws before any insert). -/
def createTransaction (st : PharmacyDB) (itemId : String) (txType : TxType)
    (quantity : Int) : PharmacyDB × Except PharmacyError Int :=
  if quantity ≤ 0 then (st, .error .InvalidQuantity)
  else
    match findPharmacyItem st.items itemId with
    | none => (st, .error .ItemNotFound)
    | some item =>
        if txType = .outflow ∧ item.currentStock < quantity
        then (st, .error .InsufficientStock)
        else
          let tx : PharmacyTx := ⟨itemId, txType, quantity⟩
          let items' := fn_update_pharmacy_stock st.items tx
          (⟨items', st.transactions ++ [tx]⟩, .ok (stockOf items' itemId))

/-- A sequence of ledger insertions through createTransaction. -/
def runTransactions (st : PharmacyDB) : List (String × TxType × Int) → PharmacyDB
  | [] => st
  | (iid, t, q) :: rest => runTransactions (createTransaction st iid t q).1 rest

/-- The primary key determines the pharmacy_items row. -/
def PharmacyIdsUnique (items : List PharmacyItem) : Prop :=
  ∀ a ∈ items, ∀ b ∈ items, a.id = b.id → a = b

instance (items : List PharmacyItem) : Decidable (PharmacyIdsUnique items) := by
  unfold PharmacyIdsUnique
  infer_instance

theorem findPharmacyItem_mem (l : List PharmacyItem) (iid : String) (it : PharmacyItem)
    (h : findPharmacyItem l iid = some it) : it ∈ l ∧ it.id = iid := by
  induction l with
  | nil => exact absurd h (by simp [findPharmacyItem])
  | cons a rest ih =>
    by_cases ha : a.id = iid
    · rw [findPharmacyItem, if_pos ha] at h
      have heq := Option.some.inj h
      subst heq
      exact ⟨List.mem_cons_self a rest, ha⟩
    · rw [findPharmacyItem, if_neg ha] at h
      obtain ⟨hmem, hid⟩ := ih h
      exact ⟨List.mem_cons_of_mem a hmem, hid⟩

theorem createTransaction_nonneg (st : PharmacyDB)
    (huniq : PharmacyIdsUnique st.items)
    (hpos : ∀ it ∈ st.items, 0 ≤ it.currentStock)
    (itemId : String) (txType : TxType) (quantity : Int) :
    (∀ it ∈ (createTransaction st itemId txType quantity).1.items, 0 ≤ it.currentStock)
    ∧ PharmacyIdsUnique (createTransaction st itemId txType quantity).1.items := by
  unfold createTransaction
  by_cases hq : quantity ≤ 0
  · rw [if_pos hq]
    exact ⟨hpos, huniq⟩
  · rw [if_neg hq]
    have hq0 : 0 < quantity := lt_of_not_le hq
    cases hfind : findPharmacyItem st.items itemId with
    | none => exact ⟨hpos, huniq⟩
    | some item =>
      dsimp only
      obtain ⟨hitem, hitemid⟩ := findPharmacyItem_mem st.items itemId item hfind
      by_cases hout : txType = TxType.outflow ∧ item.currentStock < quantity
      · rw [if_pos hout]
        exact ⟨hpos, huniq⟩
      · rw [if_neg hout]
        constructor
        · intro it hmem
          simp only [fn_update_pharmacy_stock, List.mem_map] at hmem
          obtain ⟨it0, hm0, rfl⟩ := hmem
          by_cases hid : it0.id = itemId
          · rw [if_pos hid]
            simp only
            cases txType with
            | inflow =>
              dsimp only
              have := hpos it0 hm0
              omega
            | outflow =>
              dsimp only
              have hsame : it0 = item := huniq it0 hm0 item hitem (by rw [hid, hitemid])
              have : ¬ item.currentStock < quantity := fun hc => hout ⟨rfl, hc⟩
              rw [hsame]
              omega
          · rw [if_neg hid]
            exact hpos it0 hm0
        · intro a ha b hb hab
          simp only [fn_update_pharmacy_stock, List.mem_map] at ha hb
          obtain ⟨a0, ham, rfl⟩ := ha
          obtain ⟨b0, hbm, rfl⟩ := hb
          have hid : a0.id = b0.id := by
            by_cases h1 : a0.id = itemId <;> by_cases h2 : b0.id = itemId <;>
              simp only [if_pos, if_neg, h1, h2] at hab <;> simp_all
          have : a0 = b0 := huniq a0 ham b0 hbm hid
          rw [this]

theorem runTransactions_nonneg (st : PharmacyDB)
    (huniq : PharmacyIdsUnique st.items)
    (hpos : ∀ it ∈ st.items, 0 ≤ it.currentStock)
    (txs : List (String × TxType × Int)) :
    ∀ it ∈ (runTransactions st txs).items, 0 ≤ it.currentStock := by
  induction txs generalizing st with
  | nil => exact hpos
  | cons tx rest ih =>
    obtain ⟨iid, t, q⟩ := tx
    exact ih (createTransaction st iid t q).1
      (createTransaction_nonneg st huniq hpos iid t q).2
      (createTransaction_nonneg st huniq hpos iid t q).1

/-! ## C6: stock non-negativity and the InsufficientStock guard -/

/-- The concrete state of the claim: one item at stock 10, empty ledger. -/
def pharmacyAt10 : PharmacyDB := ⟨[⟨"item1", 10⟩], []⟩

/-- C6: an outbound ledger entry above current stock is rejected with
InsufficientStock and leaves ledger and stock unchanged (stock 10
rejects quantity 15 and stays at 10); an outbound entry equal to stock
succeeds and leaves stock 0 with the ledger row appended; and after any
sequence of ledger insertions through createTransaction, starting from
unique item rows with non-negative stock, stock is never negative. -/
theorem c6_stock_never_negative (st : PharmacyDB)
    (huniq : PharmacyIdsUnique st.items)
    (hpos : ∀ it ∈ st.items, 0 ≤ it.currentStock) :
    (∀ txs, ∀ it ∈ (runTransactions st txs).items, 0 ≤ it.currentStock)
    ∧ createTransaction pharmacyAt10 "item1" .outflow 15
        = (pharmacyAt10, .error .InsufficientStock)
    ∧ createTransaction pharmacyAt10 "item1" .outflow 10
        = (⟨[⟨"item1", 0⟩], [⟨"item1", .outflow, 10⟩]⟩, .ok 0) := by
  exact ⟨fun txs => runTransactions_nonneg st huniq hpos txs, by decide, by decide⟩

/-- Witness for C6 at the concrete one-item state. -/
theorem c6_stock_never_negative_witness :
    createTransaction pharmacyAt10 "item1" .outflow 15
      = (pharmacyAt10, .error .InsufficientStock) :=
  (c6_stock_never_negative pharmacyAt10 (by decide) (by decide)).2.1

/-! ## Medical act commissions (compute_act_commissions) -/

/-- A row of medical_acts (the columns the claim is about): price in
cents, rates in ten-thousandths (NULL allowed), amounts in cents. -/
structure MedicalAct where
  id : String
  priceC : Int
  internalRate4 : Option Int
  externalRate4 : Option Int
  internalAmountC : Int
  externalAmountC : Int
deriving Repr, DecidableEq

/-- `price * COALESCE(rate, 0)` stored into a NUMERIC(10,2) column:
cents × ten-thousandths gives a six-decimal product, rounded back to
cents on storage. -/
def commissionAmountC (priceC : Int) (rate4 : Option Int) : Int :=
  numericRoundDiv (priceC * rate4.getD 0) 10000

/-- Trigger function compute_act_commissions (BEFORE INSERT OR
UPDATE): overwrites both amount columns of the NEW row from price and
the rates, discarding whatever the client supplied there. -/
def compute_act_commissions (new : MedicalAct) : MedicalAct :=
  { new with
    internalAmountC := commissionAmountC new.priceC new.internalRate4
    externalAmountC := commissionAmountC new.priceC new.externalRate4 }

/-- INSERT INTO medical_acts: the BEFORE trigger rewrites the row that
is persisted. -/
def insertMedicalAct (table : List MedicalAct) (new : MedicalAct) : List MedicalAct :=
  table ++ [compute_act_commissions new]

/-- UPDATE of the medical_acts row with the given id to the NEW row:
the BEFORE trigger rewrites the persisted row. -/
def updateMedicalAct (table : List MedicalAct) (id : String) (new : MedicalAct) :
    List MedicalAct :=
  table.map (fun row => if row.id = id then compute_act_commissions new else row)

/-! ## C7: commission derivation -/

/-- C7 counterexample: the persisted amount is the cent-rounded value,
not the exact product: price 0.25 with internal rate 0.2500 persists
internal amount 0.06, but price × rate = 0.0625, so the claimed
equation internalAmount = price × internalRate fails on this row. -/
theorem c7_counterexample :
    (compute_act_commissions ⟨"m1", 25, some 2500, some 0, 0, 0⟩).internalAmountC = 6
    ∧ ((6 : ℚ) / 100) ≠ ((25 : ℚ) / 100) * ((2500 : ℚ) / 10000) := by
  constructor
  · decide
  · norm_num

/-- C7 amended: on every insert or update the persisted row satisfies
internalAmount = price × COALESCE(internalRate, 0) rounded to cents and
likewise for externalAmount, derived by the BEFORE trigger regardless
of any client-supplied amount fields (equal inputs up to those fields
persist identically); the example is exact: price 100.00 with rates
0.1500 and 0.0500 persists amounts 15.00 and 5.00 whatever amounts the
client supplied. -/
theorem c7_commission_derivation :
    (∀ (table : List MedicalAct) (new : MedicalAct),
      ∀ row ∈ insertMedicalAct table new,
        row ∈ table ∨
          (row.internalAmountC = commissionAmountC row.priceC row.internalRate4
           ∧ row.externalAmountC = commissionAmountC row.priceC row.externalRate4))
    ∧ (∀ (table : List MedicalAct) (id : String) (new : MedicalAct),
        ∀ row ∈ updateMedicalAct table id new,
          row ∈ table ∨
            (row.internalAmountC = commissionAmountC row.priceC row.internalRate4
             ∧ row.externalAmountC = commissionAmountC row.priceC row.externalRate4))
    ∧ (∀ (new : MedicalAct) (a b : Int),
        compute_act_commissions { new with internalAmountC := a, externalAmountC := b }
          = compute_act_commissions new)
    ∧ (∀ (idv : String) (a b : Int),
        compute_act_commissions ⟨idv, 10000, some 1500, some 500, a, b⟩
          = ⟨idv, 10000, some 1500, some 500, 1500, 500⟩) := by
  refine ⟨?_, ?_, ?_, ?_⟩
  · intro table new row hmem
    rcases List.mem_append.mp hmem with h | h
    · exact Or.inl h
    · rw [List.mem_singleton] at h
      subst h
      exact Or.inr ⟨rfl, rfl⟩
  · intro table id new row hmem
    simp only [updateMedicalAct, List.mem_map] at hmem
    obtain ⟨row0, hm0, rfl⟩ := hmem
    by_cases h : row0.id = id
    · rw [if_pos h]
      exact Or.inr ⟨rfl, rfl⟩
    · rw [if_neg h]
      exact Or.inl hm0
  · intro new a b
    rfl
  · intro idv a b
    simp [compute_act_commissions, commissionAmountC, numericRoundDiv]

/-! ## Audit recorder (log_audit_change) -/

/-- A row of audit_logs (the columns the claim is about). -/
structure AuditLogEntry where
  tableName : String
  operation : String
  userId : Option String
  recordId : String
deriving Repr, DecidableEq

/-- Environment of one audited mutation: whether the lookup of
get_current_user_id() raises, the session user id it would return, and
whether the INSERT INTO audit_logs itself fails. -/
structure AuditEnv where
  userIdLookupRaises : Bool
  sessionUserId : Option String
  auditInsertFails : Bool
deriving Repr, DecidableEq

/-- Trigger function log_audit_change: the user-id lookup is wrapped in
an exception handler that falls back to NULL, but the INSERT INTO
audit_logs is not — its failure propagates out of the trigger. -/
def log_audit_change (env : AuditEnv) (tableName operation recordId : String) :
    Except Unit AuditLogEntry :=
  let usr : Option String := if env.userIdLookupRaises then none else env.sessionUserId
  if env.auditInsertFails then .error ()
  else .ok ⟨tableName, operation, usr, recordId⟩

/-- The audited tables of the business mutation modelled here. -/
structure AuditedDB where
  patients : List Patient
  auditLogs : List AuditLogEntry
deriving Repr, DecidableEq

/-- INSERT INTO patients together with its AFTER trigger audit_patients
in one transaction: an error raised by the trigger aborts the whole
transaction, so neither the patient row nor the audit row persists. -/
def insertPatientAudited (env : AuditEnv) (st : AuditedDB) (p : Patient) :
    Except Unit AuditedDB :=
  match log_audit_change env "patients" "INSERT" p.id with
  | .error e => .error e
  | .ok entry => .ok ⟨st.patients ++ [p], st.auditLogs ++ [entry]⟩

/-! ## C9: audit failure and the primary mutation -/

def auditPatient : Patient := ⟨"p9", some "centerA", "Jane", "Doe"⟩

/-- C9 counterexample: when the audit insert fails, the whole
transaction fails — the business mutation does not commit, so the
audit recorder is not best-effort with respect to it. -/
theorem c9_counterexample :
    insertPatientAudited ⟨false, some "u1", true⟩ ⟨[], []⟩ auditPatient = .error () := by
  decide

/-- C9 amended: only the lookup of the acting user id is best-effort —
its failure is swallowed and the audit entry records a NULL user while
the mutation commits; but the audit insert itself is transactional
with the mutation: when it fails the business mutation is rolled back
with it, instead of committing with a logged warning. -/
theorem c9_audit_transactional (env : AuditEnv) (st : AuditedDB) (p : Patient) :
    (env.auditInsertFails = false →
      insertPatientAudited env st p
        = .ok ⟨st.patients ++ [p],
               st.auditLogs ++ [⟨"patients", "INSERT",
                 (if env.userIdLookupRaises then none else env.sessionUserId), p.id⟩]⟩)
    ∧ (env.auditInsertFails = true → insertPatientAudited env st p = .error ()) := by
  constructor
  · intro h
    simp [insertPatientAudited, log_audit_change, h]
  · intro h
    simp [insertPatientAudited, log_audit_change, h]

/-- Witness for C9 amended: a raising user-id lookup alone does not
block the mutation, which commits with a NULL audit user. -/
theorem c9_audit_transactional_witness :
    insertPatientAudited ⟨true, some "u1", false⟩ ⟨[], []⟩ auditPatient
      = .ok ⟨[auditPatient], [⟨"patients", "INSERT", none, "p9"⟩]⟩ :=
  (c9_audit_transactional ⟨true, some "u1", false⟩ ⟨[], []⟩ auditPatient).1 rfl

end Titan
